import Mathlib

/-!
# Verification of the acsummary pipeline

Shallow embedding of the acsummary repository (calendar scraping +
per-article fetch/summarize pipeline) and proofs about its behaviour.

Conventions of the embedding:

* Python strings are Lean `String`s; where the code slices/iterates a
  string character by character (`_clean_content`), the text is a
  `List Char` (a Python `str` is a sequence of code points).
* Calendar dates: both parsers construct `datetime.date(2024, 12, day)`
  with the year and month fixed, so a date is embedded as its day-of-month
  `Nat`; `mkDecemberDate` mirrors `datetime.date`'s range check.
* Fallible code returns `Except String α`, the `String` being the
  exception message.
* External I/O (the LLM completion call, `json.loads`, HTTP GETs, the
  html2text converter) is passed in as oracle parameters, so every
  definition stays executable.
-/

namespace Acsummary

/-- `datetime.date(2024, 12, day)` as used by the parsers (year and month
are the fixed constants 2024/12 in the source).  `datetime.date` raises
`ValueError("day is out of range for month")` when the day is outside the
month, which the embedding renders as an `Except.error`. -/
def mkDecemberDate (day : Nat) : Except String Nat :=
  if 1 ≤ day ∧ day ≤ 31 then .ok day else .error "day is out of range for month"

/-- `models.Article`: the pipeline's working record.  `date` is the
day-of-month (fixed December 2024), `content` is the cleaned body text as a
character sequence. -/
structure Article where
  date : Nat
  handle_name : String
  title : String
  genre : Option String
  summary : Option String
  url : String
  content : Option (List Char)
deriving DecidableEq, Repr

/-! ## ai_processor: ContentAnalyzer.analyze_content / process_article -/

/-- One element of `response.choices`: only `message.content` is read. -/
structure Message where
  content : String
deriving DecidableEq, Repr

/-- The litellm completion response: only `choices` is read. -/
structure CompletionResponse where
  choices : List Message
deriving DecidableEq, Repr

/-- Outcome of everything inside `analyze_content`'s `try` block up to and
including `await acompletion(...)`: either some exception escaped
(`rate_limiter.acquire` or the completion call raising), or a response
value was produced (`none` embeds a falsy/`None` response). -/
inductive LLMOutcome where
  | exn
  | resp (r : Option CompletionResponse)
deriving DecidableEq, Repr

/-- A parsed JSON object as consumed by `analyze_content`: it only performs
`.get` on the string keys `"genre"` and `"summary"`, so the object is an
association list from keys to string values. -/
abbrev JsonDict := List (String × String)

/-- Python `dict.get`: the value at the first matching key, else `None`. -/
def jsonGet (d : JsonDict) (k : String) : Option String :=
  (d.find? (fun p => p.1 == k)).map Prod.snd

/-- `ContentAnalyzer.analyze_content` (ai_processor.py lines 91-138).

The whole body sits in a `try` whose `except Exception` clause returns the
sentinel pair `("未分類", "要約の生成に失敗しました")`, so the function
never raises; hence it is embedded as a total function to `String × String`.
`jsonParse` is the oracle for `json.loads` (`none` = `JSONDecodeError`);
`o` is the outcome of the completion call.  The falsy checks
`not response or not response.choices or not response.choices[0].message.content`
and `not genre or not summary` treat `None` and the empty string alike. -/
def analyze_content (jsonParse : String → Option JsonDict) (o : LLMOutcome) :
    String × String :=
  match o with
  | .exn => ("未分類", "要約の生成に失敗しました")
  | .resp none => ("未分類", "要約の生成に失敗しました")
  | .resp (some response) =>
    match response.choices with
    | [] => ("未分類", "要約の生成に失敗しました")
    | msg :: _ =>
      if msg.content = "" then ("未分類", "要約の生成に失敗しました")
      else
        match jsonParse msg.content with
        | none => ("未分類", "要約の生成に失敗しました")
        | some result =>
          match jsonGet result "genre", jsonGet result "summary" with
          | some genre, some summary =>
            if genre = "" ∨ summary = "" then
              ("未分類", "要約の生成に失敗しました")
            else (genre, summary)
          | some _, none => ("未分類", "要約の生成に失敗しました")
          | none, _ => ("未分類", "要約の生成に失敗しました")

/-- `process_article` (ai_processor.py lines 141-156): run the analyzer and
store the resulting pair into the article's `genre`/`summary` fields.
(The function's own `except` clause is unreachable because `analyze_content`
catches every exception and returns the sentinel pair instead.) -/
def process_article (jsonParse : String → Option JsonDict) (o : LLMOutcome)
    (a : Article) : Article :=
  let gs := analyze_content jsonParse o
  { a with genre := some gs.1, summary := some gs.2 }

/-- The completion response is null/empty: `None` itself, an empty
`choices` list, or an empty first-choice message content — the falsy checks
of `analyze_content`. -/
def emptyResponseCase : LLMOutcome → Prop
  | .exn => False
  | .resp none => True
  | .resp (some r) =>
    match r.choices with
    | [] => True
    | msg :: _ => msg.content = ""

/-- The choice content is present but is not valid JSON
(`json.loads` raises `JSONDecodeError`). -/
def nonJsonCase (jsonParse : String → Option JsonDict) : LLMOutcome → Prop
  | .resp (some r) =>
    match r.choices with
    | msg :: _ => msg.content ≠ "" ∧ jsonParse msg.content = none
    | [] => False
  | _ => False

/-- The content parses as JSON but the object is missing the `genre` or
`summary` key, or maps one of them to the empty string. -/
def missingFieldCase (jsonParse : String → Option JsonDict) : LLMOutcome → Prop
  | .resp (some r) =>
    match r.choices with
    | msg :: _ => msg.content ≠ "" ∧ ∃ d, jsonParse msg.content = some d ∧
        (jsonGet d "genre" = none ∨ jsonGet d "genre" = some "" ∨
         jsonGet d "summary" = none ∨ jsonGet d "summary" = some "")
    | [] => False
  | _ => False

/-- C1: `analyze_content` never raises to its caller (it is a total
function in the embedding), and a null/empty completion response, a
non-JSON response body, and a JSON response missing or having an empty
`genre`/`summary` field each make it return exactly the sentinel pair
`("未分類", "要約の生成に失敗しました")`. -/
theorem analyze_content_failure_sentinel
    (jsonParse : String → Option JsonDict) (o : LLMOutcome)
    (h : emptyResponseCase o ∨ nonJsonCase jsonParse o ∨
      missingFieldCase jsonParse o) :
    analyze_content jsonParse o = ("未分類", "要約の生成に失敗しました") := by
  match o with
  | .exn =>
    rcases h with h | h | h <;> simp [emptyResponseCase, nonJsonCase,
      missingFieldCase] at h
  | .resp none => rfl
  | .resp (some r) =>
    match hc : r.choices with
    | [] => simp [analyze_content, hc]
    | msg :: rest =>
      rcases h with h | h | h
      · simp only [emptyResponseCase, hc] at h
        simp [analyze_content, hc, h]
      · simp only [nonJsonCase, hc] at h
        simp [analyze_content, hc, h.1, h.2]
      · simp only [missingFieldCase, hc] at h
        obtain ⟨hne, d, hd, hcase⟩ := h
        simp only [analyze_content, hc, if_neg hne, hd]
        rcases hcase with h1 | h1 | h1 | h1 <;> rw [h1] <;>
          cases hg : jsonGet d "genre" <;> cases hs : jsonGet d "summary" <;>
          simp_all

/-- Witness for C1: the concrete `None` response yields the sentinel pair. -/
theorem analyze_content_failure_sentinel_witness :
    emptyResponseCase (.resp none) ∧
      analyze_content (fun _ => none) (.resp none) =
        ("未分類", "要約の生成に失敗しました") :=
  ⟨trivial, analyze_content_failure_sentinel (fun _ => none) (.resp none)
    (Or.inl trivial)⟩

/-- C5: after the classification stage (`process_article`), the article's
`genre` and `summary` fields are non-null, for every possible analyzer
outcome (valid analysis results or the fallback pair alike). -/
theorem process_article_fields_nonnull (jsonParse : String → Option JsonDict)
    (o : LLMOutcome) (a : Article) :
    ((process_article jsonParse o a).genre).isSome = true ∧
      ((process_article jsonParse o a).summary).isSome = true := by
  simp [process_article]

/-! ## Page fetching: `BaseCalendarScraper._fetch_page` (scraper.py) and
`DefaultContentFetcher.fetch` (content_processor.py) -/

/-- Result of one HTTP GET attempt, supplied by the network oracle:
`ok body` is a successful response body, `err msg` any exception raised by
the request (`raise_for_status` on a non-2xx status, timeout, connection
error, ...). -/
inductive AttemptResult where
  | ok (body : String)
  | err (msg : String)
deriving DecidableEq, Repr

/-- `BaseCalendarScraper._fetch_page` (scraper.py lines 83-104), with an
initialized session.  `oracle k` is the outcome the network would give the
k-th GET attempt on the URL.  The body performs exactly one
`session.get`; any exception is wrapped into a `ScrapingError`.  The second
component of the result records the durations of the sleep calls the
function performs — the source contains none, so it is always `[]`.
(`DefaultContentFetcher.fetch` has the same single-attempt shape, merely
propagating the raw client error instead of wrapping it.) -/
def fetch_page (url : String) (oracle : Nat → AttemptResult) :
    Except String String × List Nat :=
  match oracle 0 with
  | .ok body => (.ok body, [])
  | .err msg =>
    (.error ("ページの取得に失敗しました: " ++ url ++ " - " ++ msg), [])

/-- Modelled from the spec: the §4.2 "Page Fetcher" retry policy
(`fetchWithRetry`), which is absent from the source — neither
`DefaultContentFetcher.fetch` nor `BaseCalendarScraper._fetch_page`
contains a retry loop, a sleep, or an attempt counter.  Spec wording:
up to `maxAttempts` attempts; a failed attempt `k` sleeps `2^k` time
units before the next attempt; on exhausting all attempts, raise a
`FetchError` annotated with the attempt count. -/
def spec_fetchWithRetry (oracle : Nat → AttemptResult) (maxAttempts : Nat) :
    Except String String × List Nat :=
  go 0 maxAttempts
where
  go (k : Nat) : Nat → Except String String × List Nat
    | 0 => (.error ("FetchError: failed after " ++ toString k ++ " attempts"), [])
    | remaining + 1 =>
      match oracle k with
      | .ok body => (.ok body, [])
      | .err _ =>
        match remaining with
        | 0 =>
          (.error ("FetchError: failed after " ++ toString (k + 1) ++ " attempts"),
            [])
        | _ + 1 =>
          let r := go (k + 1) remaining
          (r.1, 2 ^ k :: r.2)

/-- Network oracle that fails the first two attempts and succeeds with body
`"body"` on the third. -/
def failTwiceOracle : Nat → AttemptResult :=
  fun k => if k < 2 then .err "connection reset" else .ok "body"

/-- C2 counterexample: on a URL whose first two attempts fail and whose
third attempt would succeed, the code's fetch does NOT return the
successful body and performs no sleeps — it raises on the very first
failure, because no retry logic exists in the source.  The third conjunct
shows what the claimed (spec-modelled) retry policy would have produced:
the successful body after sleeping 1 and 2 time units. -/
theorem fetch_retry_counterexample :
    (fetch_page "https://example.com/a" failTwiceOracle).1 ≠ .ok "body" ∧
    fetch_page "https://example.com/a" failTwiceOracle =
      (.error
        "ページの取得に失敗しました: https://example.com/a - connection reset",
        []) ∧
    spec_fetchWithRetry failTwiceOracle 3 = (.ok "body", [1, 2]) := by
  refine ⟨by simp [fetch_page, failTwiceOracle], by rfl, by rfl⟩

/-- C2 amended: every page fetch performs exactly one GET attempt and never
sleeps: the result depends only on the outcome of attempt 0; a successful
first attempt returns its body; a failed first attempt immediately yields
the wrapped `ScrapingError`, with no retry and no backoff. -/
theorem fetch_page_single_attempt (url : String)
    (oracle oracle2 : Nat → AttemptResult) :
    (fetch_page url oracle).2 = [] ∧
    (oracle 0 = oracle2 0 → fetch_page url oracle = fetch_page url oracle2) ∧
    (∀ body, oracle 0 = .ok body → (fetch_page url oracle).1 = .ok body) ∧
    (∀ msg, oracle 0 = .err msg →
      (fetch_page url oracle).1 =
        .error ("ページの取得に失敗しました: " ++ url ++ " - " ++ msg)) := by
  refine ⟨?_, ?_, ?_, ?_⟩
  · cases h0 : oracle 0 <;> simp [fetch_page, h0]
  · intro h; simp [fetch_page, h]
  · intro body h; simp [fetch_page, h]
  · intro msg h; simp [fetch_page, h]

/-- Witness for the amended C2 at the concrete fail-twice oracle. -/
theorem fetch_page_single_attempt_witness :
    (fetch_page "u" failTwiceOracle).2 = [] ∧
    (fetch_page "u" failTwiceOracle).1 =
      .error "ページの取得に失敗しました: u - connection reset" :=
  ⟨(fetch_page_single_attempt "u" failTwiceOracle failTwiceOracle).1,
    (fetch_page_single_attempt "u" failTwiceOracle failTwiceOracle).2.2.2
      "connection reset" (by decide)⟩

/-! ## rate_limiter.RateLimiter -/

/-- `rate_limiter.RateLimiter`: timestamps are rationals (a `datetime`
measured in seconds); `request_times` is the `_request_times` deque with
the oldest timestamp first. -/
structure RateLimiter where
  requests_per_period : Nat
  period_seconds : ℚ
  request_times : List ℚ
deriving DecidableEq, Repr

/-- The eviction loop at the top of `acquire`: pop timestamps from the head
of the deque while the head is strictly older than `period_seconds`. -/
def evictOld (period now : ℚ) : List ℚ → List ℚ
  | [] => []
  | t :: ts => if now - t > period then evictOld period now ts else t :: ts

/-- `RateLimiter.acquire` (rate_limiter.py lines 20-47) under an idealized
clock: `now` is the clock when the call starts; sleeping for `w` advances
the clock to `now + w`; the timestamp recorded at the end is the clock
value at that moment.  Returns the updated limiter, the clock when the call
returns, and the duration slept (`max (oldest + period - now) 0`: the
Python code sleeps only when the computed `wait_time` is positive).
When `requests_per_period = 0` and the evicted deque is empty the Python
code would raise `IndexError` on `self._request_times[0]`; that branch —
unreachable from the repository's configuration `requests_per_period = 1` —
is rendered as a zero wait. -/
def RateLimiter.acquire (rl : RateLimiter) (now : ℚ) : RateLimiter × ℚ × ℚ :=
  let ts := evictOld rl.period_seconds now rl.request_times
  let wait : ℚ :=
    if rl.requests_per_period ≤ ts.length then
      match ts with
      | [] => 0
      | t :: _ => max (t + rl.period_seconds - now) 0
    else 0
  (⟨rl.requests_per_period, rl.period_seconds, ts ++ [now + wait]⟩,
    now + wait, wait)

/-- `n` consecutive `acquire` calls with no time passing between them other
than the sleeps the limiter itself performs ("immediate succession").
Returns the final limiter, the final clock, and the sleep durations in call
order. -/
def acquireRun (rl : RateLimiter) (now : ℚ) : Nat → RateLimiter × ℚ × List ℚ
  | 0 => (rl, now, [])
  | n + 1 =>
    let s := rl.acquire now
    let r := acquireRun s.1 s.2.1 n
    (r.1, r.2.1, s.2.2 :: r.2.2)

theorem acquireRun_succ (rl : RateLimiter) (now : ℚ) (n : Nat) :
    acquireRun rl now (n + 1) =
      ((acquireRun (rl.acquire now).1 (rl.acquire now).2.1 n).1,
        (acquireRun (rl.acquire now).1 (rl.acquire now).2.1 n).2.1,
        (rl.acquire now).2.2 ::
          (acquireRun (rl.acquire now).1 (rl.acquire now).2.1 n).2.2) := rfl

theorem evictOld_replicate (P t : ℚ) (hP : 0 ≤ P) (k : Nat) :
    evictOld P t (List.replicate k t) = List.replicate k t := by
  cases k with
  | zero => rfl
  | succ n =>
    rw [List.replicate_succ, evictOld, if_neg]
    simp only [sub_self, not_lt]
    exact hP

/-- An `acquire` while the window holds fewer than `requests_per_period`
timestamps (all equal to the current clock) admits immediately. -/
theorem acquire_below_limit (N : Nat) (P t : ℚ) (hP : 0 < P) (k : Nat)
    (hk : k < N) :
    RateLimiter.acquire ⟨N, P, List.replicate k t⟩ t =
      (⟨N, P, List.replicate (k + 1) t⟩, t, 0) := by
  unfold RateLimiter.acquire
  simp only [evictOld_replicate P t (le_of_lt hP), List.length_replicate,
    if_neg (Nat.not_le.mpr hk), add_zero]
  rw [← List.replicate_succ']

/-- An `acquire` on a full window of `N` timestamps all equal to `t` at
clock `t` sleeps exactly `P` and returns at clock `t + P`. -/
theorem acquire_at_limit (N : Nat) (P t : ℚ) (hP : 0 < P) (hN : 1 ≤ N) :
    RateLimiter.acquire ⟨N, P, List.replicate N t⟩ t =
      (⟨N, P, List.replicate N t ++ [t + P]⟩, t + P, P) := by
  obtain ⟨m, rfl⟩ : ∃ m, N = m + 1 := ⟨N - 1, (Nat.succ_pred_eq_of_pos hN).symm⟩
  unfold RateLimiter.acquire
  rw [evictOld_replicate P t (le_of_lt hP)]
  simp only [List.length_replicate, le_refl, if_pos, List.replicate_succ]
  rw [add_sub_cancel_left, max_eq_left (le_of_lt hP)]
  simp

theorem acquireRun_burst_aux (N : Nat) (P t : ℚ) (hP : 0 < P) (hN : 1 ≤ N) :
    ∀ n, n ≤ N →
      acquireRun ⟨N, P, List.replicate (N - n) t⟩ t (n + 1) =
        (⟨N, P, List.replicate N t ++ [t + P]⟩, t + P,
          List.replicate n 0 ++ [P]) := by
  intro n
  induction n with
  | zero =>
    intro _
    rw [Nat.sub_zero, acquireRun_succ, acquire_at_limit N P t hP hN]
    simp [acquireRun]
  | succ m ih =>
    intro hm
    have hlt : N - (m + 1) < N := by omega
    have hstep := acquire_below_limit N P t hP (N - (m + 1)) hlt
    have hsub : N - (m + 1) + 1 = N - m := by omega
    rw [hsub] at hstep
    rw [acquireRun_succ, hstep]
    simp only
    rw [ih (by omega)]
    simp [List.replicate_succ]

/-- C3: starting from an empty window with `requests_per_period = N ≥ 1`
and `period_seconds = P > 0`, issuing `N + 1` `acquire` calls in immediate
succession from clock `t` sleeps `0` on each of the first `N` calls, and
the `(N+1)`-th call sleeps exactly `P = oldestRemainingTimestamp + P - t`
(the oldest remaining timestamp being `t`, the first call's recorded
timestamp, with nothing evicted), returning at clock `t + P` — i.e. only
after `P` time units have elapsed since the first call's timestamp. -/
theorem rate_limiter_burst (N : Nat) (P t : ℚ) (hN : 1 ≤ N) (hP : 0 < P) :
    acquireRun ⟨N, P, []⟩ t (N + 1) =
      (⟨N, P, List.replicate N t ++ [t + P]⟩, t + P,
        List.replicate N 0 ++ [P]) := by
  have h := acquireRun_burst_aux N P t hP hN N (le_refl N)
  simpa using h

/-- Witness for C3 at the repository's configuration
`RateLimiter(requests_per_period=1, period_seconds=10.0)`. -/
theorem rate_limiter_burst_witness :
    (1 : Nat) ≤ 1 ∧ (0 : ℚ) < 10 ∧
      acquireRun ⟨1, 10, []⟩ 0 2 = (⟨1, 10, [0, 10]⟩, 10, [0, 10]) := by
  refine ⟨le_refl 1, by norm_num, ?_⟩
  have h := rate_limiter_burst 1 10 0 (le_refl 1) (by norm_num)
  simpa using h

/-! ## content_processor.ContentProcessor._clean_content -/

/-- Python `str.splitlines` on the separators `'\n'` and `'\r'` (the ones
relevant to extracted page text).  Python treats `"\r\n"` as a single
separator and drops a trailing empty line; this model may instead produce
extra empty chunks there, all of which `clean_content`'s non-empty filter
removes, so the composed behaviours agree. -/
def splitlinesAux : List Char → List Char → List (List Char)
  | [], acc => [acc.reverse]
  | c :: rest, acc =>
    if c = '\n' ∨ c = '\r' then acc.reverse :: splitlinesAux rest []
    else splitlinesAux rest (c :: acc)

def splitlines (l : List Char) : List (List Char) := splitlinesAux l []

/-- Python `str.strip`: drop leading and trailing whitespace. -/
def stripChars (l : List Char) : List Char :=
  ((l.dropWhile Char.isWhitespace).reverse.dropWhile Char.isWhitespace).reverse

/-- Python `' '.join(...)`. -/
def joinWithSpace : List (List Char) → List Char
  | [] => []
  | [l] => l
  | l :: rest => l ++ ' ' :: joinWithSpace rest

/-- The whitespace normalisation inside `ContentProcessor._clean_content`
(content_processor.py lines 161-179) before the final truncation:
`lines = [line.strip() for line in text.splitlines()]` followed by
`text = ' '.join(line for line in lines if line)`.  `conv` is the oracle
for `self.converter.handle` (the html2text conversion). -/
def normalize_content (conv : List Char → List Char) (content : List Char) :
    List Char :=
  joinWithSpace (((splitlines (conv content)).map stripChars).filter
    (fun l => !l.isEmpty))

/-- `ContentProcessor._clean_content`: normalise, then `return text[:8000]`. -/
def clean_content (conv : List Char → List Char) (content : List Char) :
    List Char :=
  (normalize_content conv content).take 8000

/-- C6: the cleaning step's truncation is exact at 8000 characters:
normalised text of length ≤ 8000 is returned untouched, and normalised
text of length > 8000 is cut to exactly 8000 characters (a prefix of the
text). -/
theorem clean_content_truncation (conv : List Char → List Char)
    (content : List Char) :
    ((normalize_content conv content).length ≤ 8000 →
      clean_content conv content = normalize_content conv content) ∧
    (8000 < (normalize_content conv content).length →
      (clean_content conv content).length = 8000 ∧
        clean_content conv content <+: normalize_content conv content) := by
  constructor
  · intro h
    exact List.take_of_length_le h
  · intro h
    refine ⟨?_, List.take_prefix 8000 _⟩
    simp only [clean_content, List.length_take]
    omega

theorem splitlinesAux_all_a (n : Nat) (acc : List Char) :
    splitlinesAux (List.replicate n 'a') acc =
      [acc.reverse ++ List.replicate n 'a'] := by
  induction n generalizing acc with
  | zero => simp [splitlinesAux]
  | succ m ih =>
    rw [List.replicate_succ, splitlinesAux, if_neg (by decide), ih]
    simp

theorem stripChars_all_a (n : Nat) :
    stripChars (List.replicate n 'a') = List.replicate n 'a' := by
  cases n with
  | zero => rfl
  | succ m =>
    unfold stripChars
    rw [List.replicate_succ, List.dropWhile_cons, if_neg (by decide),
      ← List.replicate_succ, List.reverse_replicate, List.replicate_succ,
      List.dropWhile_cons, if_neg (by decide), ← List.replicate_succ,
      List.reverse_replicate]

theorem normalize_content_all_a (n : Nat) (hn : 0 < n) :
    normalize_content id (List.replicate n 'a') = List.replicate n 'a' := by
  obtain ⟨m, rfl⟩ : ∃ m, n = m + 1 := ⟨n - 1, (Nat.succ_pred_eq_of_pos hn).symm⟩
  unfold normalize_content splitlines
  rw [id_eq, splitlinesAux_all_a]
  simp only [List.reverse_nil, List.nil_append, List.map_cons, List.map_nil,
    stripChars_all_a]
  rw [List.replicate_succ]
  simp [joinWithSpace]

/-- Witness for C6: a 1-character body is untouched; an 8001-character body
is cut to exactly 8000 characters. -/
theorem clean_content_truncation_witness :
    clean_content id ['a'] = normalize_content id ['a'] ∧
      (clean_content id (List.replicate 8001 'a')).length = 8000 := by
  constructor
  · have h := (clean_content_truncation id ['a']).1
    have hn : normalize_content id ['a'] = ['a'] :=
      normalize_content_all_a 1 (by norm_num)
    exact h (by rw [hn]; decide)
  · have h := (clean_content_truncation id (List.replicate 8001 'a')).2
    have hn : normalize_content id (List.replicate 8001 'a') =
        List.replicate 8001 'a' := normalize_content_all_a 8001 (by norm_num)
    refine (h ?_).1
    rw [hn, List.length_replicate]
    norm_num

/-! ## content_processor.ContentProcessor.process_articles -/

/-- One iteration of the loop in `ContentProcessor.process_articles`
(content_processor.py lines 101-129).  `fetch` embeds
`self.fetcher.fetch` and `extract` embeds `self._extract_content`
(exceptions as `.error`; `extract` returns the title and raw body text).
On success the article's `title` and `content` are updated; on any
exception the error is logged and the article is yielded unchanged — its
`content` stays as previously set (`None` coming from the scraper). -/
def process_article_content (fetch : String → Except String String)
    (extract : String → Except String (String × List Char))
    (conv : List Char → List Char) (a : Article) : Article :=
  match fetch a.url with
  | .error _ => a
  | .ok html =>
    match extract html with
    | .error _ => a
    | .ok (title, content) =>
      { a with title := title, content := some (clean_content conv content) }

/-- `ContentProcessor.process_articles`: the generator yields exactly one
article per input article, in input order. -/
def process_articles_content (fetch : String → Except String String)
    (extract : String → Except String (String × List Char))
    (conv : List Char → List Char) (articles : List Article) : List Article :=
  articles.map (process_article_content fetch extract conv)

/-- The article's page fetch or content extraction fails (raises). -/
def contentStepFails (fetch : String → Except String String)
    (extract : String → Except String (String × List Char))
    (a : Article) : Prop :=
  (fetch a.url).isOk = false ∨
    ∃ html, fetch a.url = .ok html ∧ (extract html).isOk = false

/-- A failing iteration leaves the article untouched. -/
theorem process_article_content_of_fails
    (fetch : String → Except String String)
    (extract : String → Except String (String × List Char))
    (conv : List Char → List Char) (a : Article)
    (h : contentStepFails fetch extract a) :
    process_article_content fetch extract conv a = a := by
  rcases h with h | ⟨html, hf, he⟩
  · cases hfu : fetch a.url with
    | error m => simp [process_article_content, hfu]
    | ok b => rw [hfu] at h; exact Bool.noConfusion h
  · cases hee : extract html with
    | error m => simp [process_article_content, hf, hee]
    | ok tc => rw [hee] at he; exact Bool.noConfusion he

/-- C9: the content-processing stage yields one article per input article
in order (no article is dropped), and an article whose fetch or extraction
fails is yielded downstream completely unchanged — `content` left as it
was (`None` from the scraper) and every other field as previously set. -/
theorem process_articles_isolation (fetch : String → Except String String)
    (extract : String → Except String (String × List Char))
    (conv : List Char → List Char) (articles : List Article)
    (i : Nat) (hi : i < articles.length) :
    (process_articles_content fetch extract conv articles).length =
        articles.length ∧
      (contentStepFails fetch extract (articles.get ⟨i, hi⟩) →
        (process_articles_content fetch extract conv articles).get
            ⟨i, by simpa [process_articles_content] using hi⟩ =
          articles.get ⟨i, hi⟩) := by
  constructor
  · simp [process_articles_content]
  · intro hfail
    simp only [process_articles_content, List.get_map]
    exact process_article_content_of_fails fetch extract conv _ hfail

/-- Witness for C9: a single article whose fetch fails is yielded
unchanged. -/
theorem process_articles_isolation_witness :
    (process_articles_content (fun _ => .error "connection refused")
        (fun h => .ok (h, [])) id
        [⟨1, "alice", "", none, some "hi", "https://example.com/p", none⟩]).length = 1 ∧
      (process_articles_content (fun _ => .error "connection refused")
          (fun h => .ok (h, [])) id
          [⟨1, "alice", "", none, some "hi", "https://example.com/p", none⟩]).get
          ⟨0, by simp [process_articles_content]⟩ =
        ⟨1, "alice", "", none, some "hi", "https://example.com/p", none⟩ := by
  have h := process_articles_isolation (fun _ => .error "connection refused")
    (fun h => .ok (h, [])) id
    [⟨1, "alice", "", none, some "hi", "https://example.com/p", none⟩]
    0 (by simp)
  exact ⟨h.1, h.2 (Or.inl rfl)⟩

/-! ## Python string primitives

The Lean core `String.trim`/`String.replace`/`String.splitOn` are
irreducible for the kernel, so the Python string methods the scrapers use
are modelled directly on the underlying character data (a Python `str` is
a sequence of code points). -/

/-- Python `str.strip()` on a `String`. -/
def pyStrip (s : String) : String := ⟨stripChars s.data⟩

/-- Python `str.replace(c, "")` for a single-character pattern, the only
form the source uses (`.replace("@", "")`): removes every occurrence. -/
def pyRemoveChar (c : Char) (s : String) : String :=
  ⟨s.data.filter (fun x => x ≠ c)⟩

/-- Python `str.split(sep)` for a single-character separator, keeping empty
components. -/
def splitOnCharAux (sep : Char) : List Char → List Char → List (List Char)
  | [], acc => [acc.reverse]
  | c :: rest, acc =>
    if c = sep then acc.reverse :: splitOnCharAux sep rest []
    else splitOnCharAux sep rest (c :: acc)

def splitOnChar (sep : Char) (l : List Char) : List (List Char) :=
  splitOnCharAux sep l []

/-- Python `s.isdigit()` followed by `int(s)`: `some n` exactly when the
text is non-empty and all digits. -/
def pyToNat? (l : List Char) : Option Nat :=
  if l ≠ [] ∧ l.all (fun ch => ch.isDigit) then
    some (l.foldl (fun n ch => n * 10 + (ch.toNat - '0'.toNat)) 0)
  else none

instance {ε α : Type} [DecidableEq ε] [DecidableEq α] :
    DecidableEq (Except ε α) := fun x y =>
  match x, y with
  | .ok a, .ok b =>
    if h : a = b then isTrue (by rw [h])
    else isFalse (fun hh => h (Except.ok.inj hh))
  | .error a, .error b =>
    if h : a = b then isTrue (by rw [h])
    else isFalse (fun hh => h (Except.error.inj hh))
  | .ok _, .error _ => isFalse (fun hh => Except.noConfusion hh)
  | .error _, .ok _ => isFalse (fun hh => Except.noConfusion hh)

/-! ## scraper.QiitaCalendarScraper._parse_calendar_page -/

/-- `scraper.ArticleEntry` (a NamedTuple); `entry_date` is the day-of-month
of the fixed December 2024. -/
structure ArticleEntry where
  entry_date : Nat
  handle_name : String
  url : String
  comment : Option String
deriving DecidableEq, Repr

/-- An `a.style-14mbwqe` article link: its `href` attribute (`none` embeds
both an absent and a falsy/empty attribute, which the code's
`not article_link.get("href")` check treats alike) and its visible text. -/
structure QLink where
  href : Option String
  text : String
deriving DecidableEq, Repr

/-- A `div.style-176zglo` article container: the article link and the
author link's visible text, each possibly absent. -/
structure QContainer where
  articleLink : Option QLink
  authorText : Option String
deriving DecidableEq, Repr

/-- A `td.style-1dw8kp9` day cell. -/
structure QCell where
  container : Option QContainer
deriving DecidableEq, Repr

/-- The structural skeleton probed by the Qiita parser: `noSection` = no
`section.style-t7g594` in the markup; `noTable` = section present but no
`table.style-1lopqp4` inside it; `table rows` = both present, with the
calendar rows (`tr.style-8kv4rj`) and their day cells in document order. -/
inductive QPage where
  | noSection
  | noTable
  | table (rows : List (List QCell))
deriving DecidableEq, Repr

/-- Python `list.index(x)`: the index of the first element equal to `x`
(BeautifulSoup tags compare structurally: two rows rendering identically
are equal).  The parser only calls it on an element of the list, so the
not-found `ValueError` branch is unreachable; it is rendered as the list
length. -/
def firstIndexOf : List (List QCell) → List QCell → Nat
  | [], _ => 0
  | r :: rest, row => if r = row then 0 else firstIndexOf rest row + 1

/-- One day cell of the Qiita table loop (scraper.py lines 295-326):
skip the cell when the article container, the article link with an href,
or the author link is missing; otherwise compute
`day = calendar_rows.index(row) * 7 + cell_index` (with `cell_index`
1-based) and build the entry via `date(2024, 12, day)`, which raises for a
day outside December. -/
def qiitaParseCell (rows : List (List QCell)) (row : List QCell)
    (cellIndex : Nat) (cell : QCell) : Except String (Option ArticleEntry) :=
  match cell.container with
  | none => .ok none
  | some container =>
    match container.articleLink with
    | none => .ok none
    | some link =>
      match link.href with
      | none => .ok none
      | some url =>
        match container.authorText with
        | none => .ok none
        | some author =>
          let day := firstIndexOf rows row * 7 + cellIndex
          match mkDecemberDate day with
          | .error e => .error e
          | .ok d =>
            .ok (some ⟨d, pyRemoveChar '@' (pyStrip author), url,
              some (pyStrip link.text)⟩)

/-- The inner cell loop: `for cell_index, cell in enumerate(cells, start=1)`. -/
def qiitaParseRowCells (rows : List (List QCell)) (row : List QCell) :
    Nat → List QCell → Except String (List ArticleEntry)
  | _, [] => .ok []
  | c, cell :: rest => do
    let e ← qiitaParseCell rows row c cell
    let es ← qiitaParseRowCells rows row (c + 1) rest
    match e with
    | none => .ok es
    | some a => .ok (a :: es)

/-- The outer row loop: `for row in calendar_rows`. -/
def qiitaParseRows (rows : List (List QCell)) :
    List (List QCell) → Except String (List ArticleEntry)
  | [] => .ok []
  | row :: rest => do
    let es ← qiitaParseRowCells rows row 1 row
    let rest' ← qiitaParseRows rows rest
    .ok (es ++ rest')

/-- `QiitaCalendarScraper._parse_calendar_page` (scraper.py lines 262-335).
Returns the parsed entries together with the list of warnings logged; any
exception raised inside the `try` (the two structural `ScrapingError`s and
the `ValueError` from `date`) is wrapped by the outer `except` clause into
`ScrapingError("Qiitaカレンダーページのパースに失敗しました: ...")`. -/
def qiitaParsePage (p : QPage) :
    Except String (List ArticleEntry × List String) :=
  match p with
  | .noSection =>
    .error ("Qiitaカレンダーページのパースに失敗しました: " ++
      "カレンダーセクションが見つかりませんでした")
  | .noTable =>
    .error ("Qiitaカレンダーページのパースに失敗しました: " ++
      "カレンダーテーブルが見つかりませんでした")
  | .table rows =>
    match qiitaParseRows rows rows with
    | .error e => .error ("Qiitaカレンダーページのパースに失敗しました: " ++ e)
    | .ok entries =>
      .ok (entries,
        if entries.isEmpty then ["投稿された記事が見つかりませんでした"] else [])

/-- A fully populated day cell: article link with href and title, author
link present. -/
def fullCell : QCell :=
  ⟨some ⟨some ⟨some "https://qiita.com/x/items/1", "記事タイトル"⟩,
    some "@author"⟩⟩

/-- The entry the Qiita parser produces from `fullCell` when the computed
day is 1. -/
def dupEntry : ArticleEntry :=
  ⟨1, "author", "https://qiita.com/x/items/1", some "記事タイトル"⟩

/-- C7 counterexample: in a table of two structurally identical rows, each
holding the same populated cell, the entry found in row index 1, column 1
is assigned day `1` (because `calendar_rows.index(row)` returns the index
of the *first* equal row, 0), not `7*1 + 1 = 8` as the claim states. -/
theorem qiita_duplicate_row_counterexample :
    qiitaParsePage (.table [[fullCell], [fullCell]]) =
        .ok ([dupEntry, dupEntry], []) ∧
      dupEntry.entry_date = 1 ∧ dupEntry.entry_date ≠ 7 * 1 + 1 := by
  refine ⟨by decide, rfl, by decide⟩

theorem firstIndexOf_get (rows : List (List QCell)) (hnd : rows.Nodup)
    (r : Nat) (hr : r < rows.length) :
    firstIndexOf rows (rows.get ⟨r, hr⟩) = r := by
  induction rows generalizing r with
  | nil => exact absurd hr (Nat.not_lt_zero r)
  | cons head tail ih =>
    cases r with
    | zero => simp [firstIndexOf]
    | succ m =>
      have hm : m < tail.length := Nat.lt_of_succ_lt_succ hr
      have hget : (head :: tail).get ⟨m + 1, hr⟩ = tail.get ⟨m, hm⟩ := rfl
      rw [hget]
      unfold firstIndexOf
      rw [if_neg, ih (List.Nodup.of_cons hnd) m hm]
      intro heq
      exact (List.nodup_cons.mp hnd).1 (heq ▸ List.get_mem tail m hm)

/-- C7 amended: an entry emitted from a cell in row index r (0-based) and
column index c (1-based) is assigned the day number `7*r' + c`, where `r'`
is the index of the first row structurally equal to row r
(`calendar_rows.index(row)`); when the table's rows are pairwise distinct
this equals `7r + c`.  An entry is only emitted when the cell carries both
an article link with an href and an author link. -/
theorem qiita_day_numbering (rows : List (List QCell)) (hnd : rows.Nodup)
    (r : Nat) (hr : r < rows.length) (c : Nat) (cell : QCell)
    (e : ArticleEntry)
    (he : qiitaParseCell rows (rows.get ⟨r, hr⟩) c cell = .ok (some e)) :
    e.entry_date = 7 * r + c ∧
      ∃ container link url author, cell.container = some container ∧
        container.articleLink = some link ∧ link.href = some url ∧
        container.authorText = some author := by
  obtain ⟨cont⟩ := cell
  cases cont with
  | none => simp [qiitaParseCell] at he
  | some container =>
    obtain ⟨articleLink, authorText⟩ := container
    cases articleLink with
    | none => simp [qiitaParseCell] at he
    | some link =>
      obtain ⟨href, text⟩ := link
      cases href with
      | none => simp [qiitaParseCell] at he
      | some url =>
        cases authorText with
        | none => simp [qiitaParseCell] at he
        | some author =>
          refine ⟨?_, ⟨some ⟨some url, text⟩, some author⟩,
            ⟨some url, text⟩, url, author, rfl, rfl, rfl, rfl⟩
          simp only [qiitaParseCell] at he
          rw [firstIndexOf_get rows hnd r hr] at he
          by_cases hd : 1 ≤ r * 7 + c ∧ r * 7 + c ≤ 31
          · have hmk : mkDecemberDate (r * 7 + c) = .ok (r * 7 + c) := by
              simp [mkDecemberDate, hd.1, hd.2]
            rw [hmk] at he
            simp only [Except.ok.injEq, Option.some.injEq] at he
            rw [← he]
            show r * 7 + c = 7 * r + c
            omega
          · have hmk : mkDecemberDate (r * 7 + c) =
                .error "day is out of range for month" := by
              simp only [mkDecemberDate, if_neg hd]
            rw [hmk] at he
            simp at he

/-- Witness for the amended C7: a one-row table with a populated first
cell yields the entry for day `7*0 + 1 = 1`. -/
theorem qiita_day_numbering_witness :
    dupEntry.entry_date = 7 * 0 + 1 ∧
      ∃ container link url author, fullCell.container = some container ∧
        container.articleLink = some link ∧ link.href = some url ∧
        container.authorText = some author :=
  qiita_day_numbering [[fullCell]] (by simp) 0 (by simp) 1 fullCell dupEntry
    (by decide)

/-- Six rows whose only populated cell sits in row index 5, column 1:
`day = 5*7 + 1 = 36`. -/
def overflowRows : List (List QCell) := [[], [], [], [], [], [fullCell]]

/-- C10: well-formed table markup holding an article cell at row index 5,
column 1 computes day `36 > 31`; `date(2024, 12, 36)` raises, and the
parser fails the whole parse with a ScrapingError (it does not skip the
cell and return the other entries). -/
theorem qiita_day_overflow_fails :
    qiitaParsePage (.table overflowRows) =
      .error ("Qiitaカレンダーページのパースに失敗しました: " ++
        "day is out of range for month") := rfl

/-! ## scraper.AdventarCalendarScraper._parse_calendar_page -/

/-- A `td.cell` element of the Adventar grid: whether the substring
`"inner"` occurs in its rendered markup, the `.day` element's text and the
`.userName` element's text (each `none` when the element is absent). -/
structure AdvCell where
  hasInner : Bool
  day : Option String
  userName : Option String
deriving DecidableEq, Repr

/-- A `li.item` element of the Adventar article list: the `.date` text,
the `.link a` href (`none` when the link is absent or its `href` attribute
missing/falsy) and the `.comment` text. -/
structure AdvItem where
  dateText : Option String
  href : Option String
  comment : Option String
deriving DecidableEq, Repr

/-- An Adventar calendar page: the `td.cell` elements and the `li.item`
elements, each in document order. -/
structure AdvPage where
  cells : List AdvCell
  items : List AdvItem
deriving DecidableEq, Repr

/-- `AdventarCalendarScraper._find_article_info` (scraper.py lines
219-256): scan the `li.item` list for the first item whose `.date` text,
after the last `/`, is the given day number, and which carries an article
link; return its URL and optional stripped comment.  Items failing any
check are skipped (`continue`). -/
def find_article_info (day : Nat) : List AdvItem → Option (String × Option String)
  | [] => none
  | item :: rest =>
    match item.dateText with
    | none => find_article_info day rest
    | some dt =>
      match pyToNat? (((splitOnChar '/' (pyStrip dt).data).getLastD [])) with
      | none => find_article_info day rest
      | some d =>
        if d = day then
          match item.href with
          | none => find_article_info day rest
          | some url => some (url, item.comment.map pyStrip)
        else find_article_info day rest

/-- One `td.cell` of the Adventar loop (scraper.py lines 180-212): skip
cells without `"inner"`, without a digit day text, or without a user name,
and days with no matching posted article; `date(2024, 12, day)` raises for
an out-of-range day (1-31), e.g. a cell whose day text is `"0"` or `"99"`,
and that exception aborts the whole parse. -/
def advCellEntry (items : List AdvItem) (cell : AdvCell) :
    Except String (Option ArticleEntry) :=
  if !cell.hasInner then .ok none
  else
    match cell.day with
    | none => .ok none
    | some dayText =>
      match pyToNat? (stripChars dayText.data) with
      | none => .ok none
      | some day =>
        match mkDecemberDate day with
        | .error e => .error e
        | .ok d =>
          match cell.userName with
          | none => .ok none
          | some user =>
            match find_article_info day items with
            | none => .ok none
            | some (url, comment) =>
              .ok (some ⟨d, pyStrip user, url, comment⟩)

/-- The cell loop of `AdventarCalendarScraper._parse_calendar_page`. -/
def advParseCells (items : List AdvItem) :
    List AdvCell → Except String (List ArticleEntry)
  | [] => .ok []
  | cell :: rest => do
    let e ← advCellEntry items cell
    let es ← advParseCells items rest
    match e with
    | none => .ok es
    | some a => .ok (a :: es)

/-- `AdventarCalendarScraper._parse_calendar_page` (scraper.py lines
160-217): there is no structural-anchor check — when no `td.cell` matches,
the loop body never runs and the empty list is returned with no error and
no warning.  Any exception raised inside the `try` is wrapped into
`ScrapingError("カレンダーページのパースに失敗しました: ...")`. -/
def adventarParsePage (p : AdvPage) : Except String (List ArticleEntry) :=
  match advParseCells p.items p.cells with
  | .ok entries => .ok entries
  | .error e => .error ("カレンダーページのパースに失敗しました: " ++ e)

/-- C4 counterexample: grid markup whose structural anchors are absent (no
`td.cell` elements at all) makes the grid-layout parser return an empty
list successfully and silently — it raises no error, contradicting the
claim that both parsers fail with a ParseError in that case. -/
theorem adventar_missing_structure_silent :
    adventarParsePage ⟨[], []⟩ = .ok [] ∧
      ∀ e, adventarParsePage ⟨[], []⟩ ≠ .error e :=
  ⟨rfl, fun _ h => Except.noConfusion h⟩

theorem qiitaParseRowCells_all_empty (rows : List (List QCell))
    (row : List QCell) (cells : List QCell)
    (h : ∀ cell ∈ cells, cell.container = none) :
    ∀ c, qiitaParseRowCells rows row c cells = .ok [] := by
  induction cells with
  | nil => intro c; rfl
  | cons cell rest ih =>
    intro c
    have hc : cell.container = none := h cell (List.mem_cons_self cell rest)
    have hrest := ih (fun x hx => h x (List.mem_cons_of_mem cell hx))
    simp only [qiitaParseRowCells, qiitaParseCell, hc, hrest (c + 1)]
    rfl

theorem qiitaParseRows_all_empty (rows rows' : List (List QCell))
    (h : ∀ row ∈ rows', ∀ cell ∈ row, cell.container = none) :
    qiitaParseRows rows rows' = .ok [] := by
  induction rows' with
  | nil => rfl
  | cons row rest ih =>
    have hrow := qiitaParseRowCells_all_empty rows row row
      (h row (List.mem_cons_self row rest)) 1
    have hrest := ih (fun r hr => h r (List.mem_cons_of_mem row hr))
    simp only [qiitaParseRows, hrow, hrest]
    rfl

/-- C4 amended: only the table-layout (Qiita) parser distinguishes
"structure not found" from "structure found but zero entries": a missing
calendar section or table raises a ScrapingError carrying a human-readable
description, while present structure whose cells hold no posted article
yields an empty list plus a logged warning.  The grid-layout (Adventar)
parser performs no structural check at all and silently returns an empty
list when its anchors are absent. -/
theorem parser_structure_error_handling :
    qiitaParsePage .noSection =
        .error ("Qiitaカレンダーページのパースに失敗しました: " ++
          "カレンダーセクションが見つかりませんでした") ∧
      qiitaParsePage .noTable =
        .error ("Qiitaカレンダーページのパースに失敗しました: " ++
          "カレンダーテーブルが見つかりませんでした") ∧
      (∀ rows, (∀ row ∈ rows, ∀ cell ∈ row, cell.container = none) →
        qiitaParsePage (.table rows) =
          .ok ([], ["投稿された記事が見つかりませんでした"])) ∧
      (∀ items, adventarParsePage ⟨[], items⟩ = .ok []) := by
  refine ⟨rfl, rfl, ?_, fun items => rfl⟩
  intro rows h
  simp [qiitaParsePage, qiitaParseRows_all_empty rows rows h]

/-- Witness for the amended C4: a one-row table whose single cell has no
article container yields zero entries and the warning; a grid page without
cells yields a silent empty list. -/
theorem parser_structure_error_handling_witness :
    qiitaParsePage (.table [[⟨none⟩]]) =
        .ok ([], ["投稿された記事が見つかりませんでした"]) ∧
      adventarParsePage ⟨[], [⟨some "12/1", some "u", none⟩]⟩ = .ok [] :=
  ⟨parser_structure_error_handling.2.2.1 [[⟨none⟩]] (by decide),
    parser_structure_error_handling.2.2.2 [⟨some "12/1", some "u", none⟩]⟩

/-! ## C8: grid-parser output order and the end-to-end pipeline -/

/-- The day number a cell's `.day` text parses to
(`day_elem.text.strip().isdigit()` / `int(...)`). -/
def cellDay? (c : AdvCell) : Option Nat :=
  c.day.bind (fun s => pyToNat? (stripChars s.data))

/-- A well-formed grid day cell, posted or not (the claim's "valid
grid-layout markup"): it carries the inner marker, a parseable day number
in 1..31, and a user name. -/
def advCellWF (c : AdvCell) : Bool :=
  c.hasInner &&
    (match cellDay? c with
     | some d => decide (1 ≤ d) && decide (d ≤ 31)
     | none => false) &&
    c.userName.isSome

/-- A posted day: some article item matches the cell's day. -/
def advCellPosted (items : List AdvItem) (c : AdvCell) : Bool :=
  match cellDay? c with
  | some d => (find_article_info d items).isSome
  | none => false

/-- Strictly ascending day numbers between two cells. -/
def advDayLt (c c' : AdvCell) : Bool :=
  match cellDay? c, cellDay? c' with
  | some d, some d' => decide (d < d')
  | _, _ => true

theorem advCellEntry_wf (items : List AdvItem) (c : AdvCell)
    (hwf : advCellWF c = true) :
    ∃ r, advCellEntry items c = .ok r ∧
      (advCellPosted items c = true →
        ∃ e d, r = some e ∧ cellDay? c = some d ∧ e.entry_date = d) ∧
      (advCellPosted items c = false → r = none) := by
  obtain ⟨inner, dayTxt, user⟩ := c
  simp only [advCellWF, Bool.and_eq_true] at hwf
  obtain ⟨⟨hinner, hday⟩, huser⟩ := hwf
  subst hinner
  cases dayTxt with
  | none => simp [cellDay?] at hday
  | some s =>
    cases hpd : pyToNat? (stripChars s.data) with
    | none => simp [cellDay?, hpd] at hday
    | some d =>
      simp only [cellDay?, Option.some_bind, hpd, Bool.and_eq_true,
        decide_eq_true_eq] at hday
      obtain ⟨h1, h31⟩ := hday
      have hmk : mkDecemberDate d = .ok d := by simp [mkDecemberDate, h1, h31]
      cases user with
      | none => simp at huser
      | some u =>
        have hcd : cellDay? ⟨true, some s, some u⟩ = some d := by
          simp [cellDay?, hpd]
        cases hfa : find_article_info d items with
        | none =>
          refine ⟨none, ?_, ?_, fun _ => rfl⟩
          · simp [advCellEntry, hpd, hmk, hfa]
          · intro hp
            rw [show advCellPosted items ⟨true, some s, some u⟩ = false from
              by simp [advCellPosted, cellDay?, hpd, hfa]] at hp
            exact Bool.noConfusion hp
        | some pr =>
          obtain ⟨url, com⟩ := pr
          refine ⟨some ⟨d, pyStrip u, url, com⟩, ?_, fun _ =>
            ⟨⟨d, pyStrip u, url, com⟩, d, rfl, hcd, rfl⟩, ?_⟩
          · simp [advCellEntry, hpd, hmk, hfa]
          · intro hp
            rw [show advCellPosted items ⟨true, some s, some u⟩ = true from
              by simp [advCellPosted, cellDay?, hpd, hfa]] at hp
            exact Bool.noConfusion hp

theorem advParseCells_wf (items : List AdvItem) :
    ∀ cells : List AdvCell, (∀ c ∈ cells, advCellWF c = true) →
      ∃ entries, advParseCells items cells = .ok entries ∧
        entries.map (fun e => e.entry_date) =
          (cells.filter (advCellPosted items)).filterMap cellDay? := by
  intro cells
  induction cells with
  | nil => exact fun _ => ⟨[], rfl, rfl⟩
  | cons c rest ih =>
    intro h
    obtain ⟨r, hr, hpos, hneg⟩ :=
      advCellEntry_wf items c (h c (List.mem_cons_self c rest))
    obtain ⟨entries', hrec, hmap⟩ :=
      ih (fun x hx => h x (List.mem_cons_of_mem c hx))
    cases hp : advCellPosted items c with
    | false =>
      have hrn := hneg hp
      subst hrn
      refine ⟨entries', ?_, ?_⟩
      · simp only [advParseCells, hr, hrec]; rfl
      · rw [List.filter_cons]
        simp only [hp]
        exact hmap
    | true =>
      obtain ⟨e, d, hre, hd, hed⟩ := hpos hp
      subst hre
      refine ⟨e :: entries', ?_, ?_⟩
      · simp only [advParseCells, hr, hrec]; rfl
      · rw [List.filter_cons]
        simp only [hp, if_true, List.map_cons, List.filterMap_cons, hd]
        rw [hed, hmap]

theorem advCellPosted_day (items : List AdvItem) (c : AdvCell)
    (hp : advCellPosted items c = true) : (cellDay? c).isSome = true := by
  unfold advCellPosted at hp
  cases hd : cellDay? c with
  | none => rw [hd] at hp; exact Bool.noConfusion hp
  | some d => rfl

theorem filterMap_cellDay_length :
    ∀ l : List AdvCell, (∀ c ∈ l, (cellDay? c).isSome = true) →
      (l.filterMap cellDay?).length = l.length := by
  intro l
  induction l with
  | nil => exact fun _ => rfl
  | cons c rest ih =>
    intro h
    cases hd : cellDay? c with
    | none =>
      have := h c (List.mem_cons_self c rest)
      rw [hd] at this
      exact Bool.noConfusion this
    | some d =>
      simp [List.filterMap_cons, hd,
        ih (fun x hx => h x (List.mem_cons_of_mem c hx))]

theorem filterMap_cellDay_pairwise :
    ∀ l : List AdvCell, l.Pairwise (fun a b => advDayLt a b = true) →
      (l.filterMap cellDay?).Pairwise (· < ·) := by
  intro l
  induction l with
  | nil => exact fun _ => List.Pairwise.nil
  | cons c rest ih =>
    intro hp
    obtain ⟨hhead, htail⟩ := List.pairwise_cons.mp hp
    cases hd : cellDay? c with
    | none =>
      simp only [List.filterMap_cons, hd]
      exact ih htail
    | some d =>
      simp only [List.filterMap_cons, hd]
      refine List.pairwise_cons.mpr ⟨?_, ih htail⟩
      intro d' hd'
      obtain ⟨c', hc', hcd'⟩ := List.mem_filterMap.mp hd'
      have hlt := hhead c' hc'
      unfold advDayLt at hlt
      rw [hd, hcd'] at hlt
      exact of_decide_eq_true hlt

/-- The Article built by `BaseCalendarScraper.scrape_articles` from one
parsed entry (scraper.py lines 120-131): empty title, `genre=None`,
`summary` = the calendar comment, `content=None`. -/
def entryToArticle (e : ArticleEntry) : Article :=
  ⟨e.entry_date, e.handle_name, "", none, e.comment, e.url, none⟩

/-- `BaseCalendarScraper.scrape_articles` (scraper.py lines 106-138): one
Article yielded per parsed entry, in entry order.  (The per-entry
`try/except ... continue` cannot fire: constructing an Article raises
nothing.) -/
def scrape_articles (entries : List ArticleEntry) : List Article :=
  entries.map entryToArticle

/-- `ai_processor.process_articles` (ai_processor.py lines 159-172):
classify each article of the list in order, in place; the list and its
order are unchanged.  The completion outcome and the JSON parse are
per-article oracles. -/
def ai_process_articles (outcome : Article → LLMOutcome)
    (jsonParse : Article → String → Option JsonDict)
    (articles : List Article) : List Article :=
  articles.map (fun a => process_article (jsonParse a) (outcome a) a)

/-- The content stage never changes an article's date. -/
theorem process_article_content_date (fetch : String → Except String String)
    (extract : String → Except String (String × List Char))
    (conv : List Char → List Char) (a : Article) :
    (process_article_content fetch extract conv a).date = a.date := by
  unfold process_article_content
  split
  · rfl
  · split
    · rfl
    · rfl

/-- The classification stage never changes an article's date. -/
theorem process_article_date (jsonParse : String → Option JsonDict)
    (o : LLMOutcome) (a : Article) :
    (process_article jsonParse o a).date = a.date := rfl

/-- C8: on valid grid-layout markup — every day cell well formed (inner
marker, parseable day in 1..31, user name) and cells in strictly ascending
day order — the grid parser succeeds and returns exactly one entry per
posted day (a cell with a matching article item), in strictly ascending
date order; and running those entries through the whole pipeline
(scrape → content fetch → classification) yields one output row per entry
with dates in exactly the parser's order, so output rows preserve calendar
order end-to-end. -/
theorem adventar_order_pipeline (p : AdvPage)
    (hwf : ∀ c ∈ p.cells, advCellWF c = true)
    (hasc : p.cells.Pairwise (fun c c' => advDayLt c c' = true))
    (fetch : String → Except String String)
    (extract : String → Except String (String × List Char))
    (conv : List Char → List Char)
    (outcome : Article → LLMOutcome)
    (jsonParse : Article → String → Option JsonDict) :
    ∃ entries, adventarParsePage p = .ok entries ∧
      entries.length = (p.cells.filter (advCellPosted p.items)).length ∧
      (entries.map (fun e => e.entry_date)).Pairwise (· < ·) ∧
      (ai_process_articles outcome jsonParse
          (process_articles_content fetch extract conv
            (scrape_articles entries))).map (fun a => a.date) =
        entries.map (fun e => e.entry_date) := by
  obtain ⟨entries, hparse, hmap⟩ := advParseCells_wf p.items p.cells hwf
  refine ⟨entries, ?_, ?_, ?_, ?_⟩
  · simp [adventarParsePage, hparse]
  · rw [← List.length_map entries (fun e => e.entry_date), hmap]
    refine filterMap_cellDay_length _ (fun c hc => ?_)
    exact advCellPosted_day p.items c (List.mem_filter.mp hc).2
  · rw [hmap]
    exact filterMap_cellDay_pairwise _
      (List.Pairwise.sublist (List.filter_sublist _) hasc)
  · have hdate : ∀ e : ArticleEntry,
        (process_article
            (jsonParse (process_article_content fetch extract conv
              (entryToArticle e)))
            (outcome (process_article_content fetch extract conv
              (entryToArticle e)))
            (process_article_content fetch extract conv
              (entryToArticle e))).date = e.entry_date := by
      intro e
      rw [process_article_date, process_article_content_date]
      rfl
    simp only [ai_process_articles, process_articles_content,
      scrape_articles, List.map_map]
    clear hparse hmap hwf hasc
    induction entries with
    | nil => rfl
    | cons e rest ihe =>
      simp only [List.map_cons]
      rw [Function.comp_apply, Function.comp_apply, Function.comp_apply,
        hdate e, ihe]

/-- A concrete valid grid page: alice posted on Dec 1 (comment "hello"),
bob posted on Dec 3 (no comment). -/
def gridPage : AdvPage :=
  ⟨[⟨true, some "1", some "alice"⟩, ⟨true, some "3", some "bob"⟩],
   [⟨some "12/1", some "https://example.com/a1", some "hello"⟩,
    ⟨some "12/3", some "https://example.com/a3", none⟩]⟩

/-- Witness for C8 at `gridPage` with failing-fetch and failing-LLM
oracles. -/
theorem adventar_order_pipeline_witness :
    (∀ c ∈ gridPage.cells, advCellWF c = true) ∧
      ∃ entries, adventarParsePage gridPage = .ok entries ∧
        entries.length =
          (gridPage.cells.filter (advCellPosted gridPage.items)).length ∧
        (entries.map (fun e => e.entry_date)).Pairwise (· < ·) ∧
        (ai_process_articles (fun _ => .exn) (fun _ _ => none)
            (process_articles_content (fun _ => .error "offline")
              (fun h => .ok (h, [])) id
              (scrape_articles entries))).map (fun a => a.date) =
          entries.map (fun e => e.entry_date) :=
  ⟨by decide, adventar_order_pipeline gridPage (by decide) (by decide)
    (fun _ => .error "offline") (fun h => .ok (h, [])) id
    (fun _ => .exn) (fun _ _ => none)⟩

end Acsummary
